import Mathlib

/-
  Verification development for the aidbox client library (src/aidbox/lib.py).

  The embedding is shallow: Python dicts become association lists preserving
  insertion order, Python sets become name lists, exceptions become an error
  inductive carried in Except, and the single network round trips are modelled
  by an explicit request value paired with a server-response oracle passed in
  as an argument.  Mutable dict aliasing in AidboxSearchSet is modelled by a
  store of dicts addressed by index, because the source shares one params dict
  between chained builders.
-/

namespace AidboxLib

/-- Decoded JSON-ish values as they appear in payloads and resource fields.
`rres` stands for an AidboxResource value (its resource type and data mapping),
which can be assigned as a field value; `rref` stands for an AidboxReference. -/
inductive RVal where
  | rnull
  | rbool (b : Bool)
  | rint (n : Int)
  | rstr (s : String)
  | rarr (xs : List RVal)
  | robj (fields : List (String × RVal))
  | rres (resource_type : String) (data : List (String × RVal))
  | rref (resource_type : String) (id : RVal)

/-- The library's exception kinds: AidboxResourceNotFound, AidboxAuthorizationError,
AidboxResourceFieldDoesNotExist (with the offending field and resource type), plus
the Python-level KeyError, TypeError and AttributeError the source can hit on
malformed payloads or clobbered instance slots. -/
inductive AErr where
  | notFound
  | authorizationError
  | fieldDoesNotExist (field : String) (resource_type : String)
  | keyError (key : String)
  | typeError
  | attributeError
deriving DecidableEq

/-- A Python dict with string keys, in insertion order. -/
abbrev Dict := List (String × RVal)

/-- Dict read: first binding wins (keys are unique in real dicts). -/
def dlookup : Dict → String → Option RVal
  | [], _ => none
  | (k1, v1) :: rest, k => if k1 = k then some v1 else dlookup rest k

/-- Python `d[k] = v`: replace in place keeping position, else append at the end. -/
def dictUpdate : Dict → String → RVal → Dict
  | [], k, v => [(k, v)]
  | (k1, v1) :: rest, k, v =>
    if k1 = k then (k1, v) :: rest else (k1, v1) :: dictUpdate rest k v

/-- Python `d.update(kvs)` applied left to right. -/
def dictUpdateMany (d : Dict) (kvs : Dict) : Dict :=
  kvs.foldl (fun acc kv => dictUpdate acc kv.1 kv.2) d

/-- The keys of a dict, in order. -/
def dkeys (d : Dict) : List String := d.map Prod.fst

@[simp] theorem dlookup_nil (k : String) : dlookup [] k = none := rfl

@[simp] theorem dlookup_cons (k1 k : String) (v1 : RVal) (rest : Dict) :
    dlookup ((k1, v1) :: rest) k = if k1 = k then some v1 else dlookup rest k := rfl

theorem dlookup_dictUpdate_self (d : Dict) (k : String) (v : RVal) :
    dlookup (dictUpdate d k v) k = some v := by
  induction d with
  | nil => simp [dictUpdate]
  | cons kv rest ih =>
    obtain ⟨k1, v1⟩ := kv
    by_cases h : k1 = k <;> simp [dictUpdate, h, ih]

theorem dlookup_dictUpdate_ne (d : Dict) (k1 k : String) (v : RVal) (h : k1 ≠ k) :
    dlookup (dictUpdate d k1 v) k = dlookup d k := by
  induction d with
  | nil => simp [dictUpdate, h]
  | cons kv rest ih =>
    obtain ⟨k2, v2⟩ := kv
    by_cases h2 : k2 = k1 <;> simp [dictUpdate, h2, ih]
    · subst h2; simp [h]

theorem dlookup_dictUpdate_isSome (d : Dict) (k k1 : String) (v : RVal)
    (h : (dlookup (dictUpdate d k v) k1).isSome) :
    (dlookup d k1).isSome ∨ k1 = k := by
  by_cases hk : k1 = k
  · exact Or.inr hk
  · rw [dlookup_dictUpdate_ne d k k1 v (fun he => hk he.symm)] at h
    exact Or.inl h

theorem dictUpdate_of_dlookup_eq (d : Dict) (k : String) (v : RVal)
    (h : dlookup d k = some v) : dictUpdate d k v = d := by
  induction d with
  | nil => simp at h
  | cons kv rest ih =>
    obtain ⟨k1, v1⟩ := kv
    by_cases h1 : k1 = k
    · simp [h1] at h
      simp [dictUpdate, h1, h]
    · simp [h1] at h
      simp [dictUpdate, h1, ih h]

theorem mem_of_dlookup_eq_some (d : Dict) (k : String) (v : RVal)
    (h : dlookup d k = some v) : (k, v) ∈ d := by
  induction d with
  | nil => simp at h
  | cons kv rest ih =>
    obtain ⟨k1, v1⟩ := kv
    by_cases h1 : k1 = k
    · simp [h1] at h
      simp [h1, h]
    · simp [h1] at h
      simp [ih h]

/-- One HTTP read issued by `Aidbox._fetch_resource`: the relative path and the
query parameters (`params=None` is modelled as the empty parameter dict). -/
structure Request where
  path : String
  params : Dict

/-- The server's reply to one `_fetch_resource` call, as seen by the client after
JSON decoding and field-name normalisation (the naming-convention conversion is
an external collaborator, so the oracle already speaks the client convention). -/
inductive Response where
  | notFound
  | ok (payload : RVal)
  | other

/-- Models `Aidbox._fetch_resource`: issues one GET and maps status 404 to
AidboxResourceNotFound, status 200 to the decoded payload, and anything else to
AidboxAuthorizationError.  The issued request is returned alongside the result. -/
def fetch_resource (path : String) (params : Dict) (resp : Response) :
    Request × Except AErr RVal :=
  (⟨path, params⟩,
    match resp with
    | .notFound => .error .notFound
    | .ok payload => .ok payload
    | .other => .error .authorizationError)

/-- A resource type's schema: the set of valid attribute names.  The source keeps
a Python set; the only operations it ever performs on it are membership tests and
the truthiness (non-emptiness) test, so a deduplicated list of names is a faithful
model of the set. -/
abbrev Schema := List String

/-- The per-session schema cache `Aidbox.schema` (a dict from resource type to
attribute-name set). -/
structure Aidbox where
  schema : List (String × Schema)

/-- Dict read on the schema cache (`self.schema.get(resource_type, None)`). -/
def slookup : List (String × Schema) → String → Option Schema
  | [], _ => none
  | (k1, v1) :: rest, k => if k1 = k then some v1 else slookup rest k

/-- Dict write on the schema cache (`self.schema[resource_type] = schema`). -/
def supdate : List (String × Schema) → String → Schema → List (String × Schema)
  | [], k, v => [(k, v)]
  | (k1, v1) :: rest, k, v =>
    if k1 = k then (k1, v) :: rest else (k1, v1) :: supdate rest k v

/-- Schema derivation from the fetched attribute definitions:
`{inflection.underscore(attr.path[0]) for attr in attrs} | set(["id"])`.
`heads` are the leading path segments `attr.path[0]`; `underscore` is the
external naming-convention conversion.  `dedup` mirrors the set comprehension. -/
def mkSchemaSet (underscore : String → String) (heads : List String) : Schema :=
  ((heads.map underscore) ++ ["id"]).dedup

/-- The fetch branch of `Aidbox._fetch_schema`: read the `Attribute` collection
filtered by `entity = resource_type`, take each entry's `resource.path[0]`
(an entry with an empty path would raise an IndexError, modelled as an error),
derive the schema set and store it in the cache.  The server oracle `server`
yields the `path` lists of the entries the server returns for a resource type. -/
def fetch_schema_fresh (underscore : String → String)
    (server : String → List (List String)) (rt : String) (s : Aidbox) :
    Except AErr Schema × Aidbox × List Request :=
  let req : Request := ⟨"Attribute", [("entity", .rstr rt)]⟩
  match (server rt).mapM List.head? with
  | none => (.error (.keyError "path"), s, [req])
  | some heads =>
    let sch := mkSchemaSet underscore heads
    (.ok sch, ⟨supdate s.schema rt sch⟩, [req])

/-- Models `Aidbox._fetch_schema`.  Note the source's cache-hit test is the
Python truthiness test `if not schema:`, which treats both a missing entry and
an empty cached set as a miss. -/
def fetch_schema (underscore : String → String)
    (server : String → List (List String)) (rt : String) (s : Aidbox) :
    Except AErr Schema × Aidbox × List Request :=
  match slookup s.schema rt with
  | none => fetch_schema_fresh underscore server rt s
  | some sch =>
    if sch.isEmpty then fetch_schema_fresh underscore server rt s
    else (.ok sch, s, [])

theorem slookup_supdate_self (c : List (String × Schema)) (k : String) (v : Schema) :
    slookup (supdate c k v) k = some v := by
  induction c with
  | nil => simp [supdate, slookup]
  | cons kv rest ih =>
    obtain ⟨k1, v1⟩ := kv
    by_cases h : k1 = k <;> simp [supdate, slookup, h, ih]

theorem slookup_supdate_ne (c : List (String × Schema)) (k1 k : String) (v : Schema)
    (h : k1 ≠ k) : slookup (supdate c k1 v) k = slookup c k := by
  induction c with
  | nil => simp [supdate, slookup, h]
  | cons kv rest ih =>
    obtain ⟨k2, v2⟩ := kv
    by_cases h2 : k2 = k1 <;> simp [supdate, slookup, h2, ih]
    · subst h2; simp [h]

theorem id_mem_mkSchemaSet (underscore : String → String) (heads : List String) :
    "id" ∈ mkSchemaSet underscore heads := by
  simp [mkSchemaSet]

theorem mkSchemaSet_ne_nil (underscore : String → String) (heads : List String) :
    (mkSchemaSet underscore heads).isEmpty = false := by
  rcases h : (mkSchemaSet underscore heads).isEmpty with _ | _
  · rfl
  · exfalso
    have hid := id_mem_mkSchemaSet underscore heads
    rw [List.isEmpty_iff] at h
    rw [h] at hid
    simp at hid

/-- The attribute names `__setattr__` finds in `dir(self)` for an AidboxResource:
the class-level attributes and methods declared in the source.  (`dir` also lists
the inherited Python dunder names; resource attribute names coming from FHIR
attribute paths never collide with those, so they are not enumerated here.) -/
def dirNames : List String :=
  ["aidbox", "resource_type", "data", "meta", "root_attrs",
   "save", "delete", "reference", "__init__", "__setattr__", "__getattr__",
   "__str__", "__repr__"]

/-- An AidboxResource instance, slot for slot.  `aidbox` is the owning-session
slot: `some schemaOf` models an intact session whose populated schema cache is
the lookup `schemaOf` (the `_fetch_schema` call in `__init__` populates the
entry the entity consults; the model's total function assumes consulted entries
exist — no theorem below rebinds `resource_type` to an unfetched type); `none`
models the slot after an assignment replaced the session by a payload value —
payload values are JSON data, never session objects, so any reachable `aidbox`
assignment clobbers the session and every later `self.root_attrs` access raises
an AttributeError.  `resource_type` and `meta` are the instance attributes of
those names.  `data` is the `self.data` slot: normally the dict the field
mapping lives in, but an assignment to the name `data` replaces it by an
arbitrary value, after which field writes raise a TypeError and field reads an
AttributeError.  `slots` holds the remaining `dir`-named instance attributes
(shadowed method names, and the raw value of a clobbered `aidbox`). -/
structure AidboxResource where
  aidbox : Option (String → Schema)
  resource_type : RVal
  meta : RVal
  data : RVal
  slots : Dict

/-- The resource-type string used in error messages and references;
non-string resource types are outside the modelled fragment. -/
def rtName : RVal → String
  | .rstr s => s
  | _ => ""

/-- `value.id` as read by `AidboxResource.reference()`: the entity's data field
`id` (every real entity's schema contains `id`, so the read succeeds and
defaults to None when the field was never set). -/
def idOf (data : Dict) : RVal := (dlookup data "id").getD .rnull

/-- The conversion `__setattr__` applies to an assigned value:
an AidboxResource value becomes `value.reference()`, an AidboxReference holding
exactly the entity's resource type and id; everything else is stored as is. -/
def convertValue : RVal → RVal
  | .rres rt d => .rref rt (idOf d)
  | v => v

/-- True exactly for AidboxResource values (`isinstance(value, AidboxResource)`). -/
def isResVal : RVal → Bool
  | .rres _ _ => true
  | _ => false

/-- The value of the `root_attrs` property `self.aidbox.schema[self.resource_type]`
on an entity whose session slot is intact.  Theorem statements use it only on
intact entities; on a clobbered session it defaults to the empty set, whereas
the faithful access inside `setattr`/`getattr` raises an AttributeError there. -/
def AidboxResource.root_attrs (r : AidboxResource) : Schema :=
  match r.aidbox with
  | none => []
  | some sf => sf (rtName r.resource_type)

/-- The field mapping living in the `data` slot of an entity whose slot still
holds a dict; on a replaced slot it defaults to the empty mapping, whereas the
faithful accesses inside `setattr`/`getattr` raise there. -/
def AidboxResource.dataFields (r : AidboxResource) : Dict :=
  match r.data with
  | .robj fs => fs
  | _ => []

/-- Models `AidboxResource.__setattr__`.  A `dir`-known name goes to
`super().__setattr__`: `root_attrs` is a property without a setter, so that
assignment raises an AttributeError; `meta`, `resource_type` and `data` rebind
their slots (assigning `data` replaces the field mapping by an arbitrary
value); `aidbox` rebinds the session slot — the assigned value, being payload
data rather than a session, leaves the slot without a usable schema cache; any
other `dir` name (a shadowed method) lands in the instance dict.  Otherwise the
key is checked against the live `self.root_attrs` (raising an AttributeError if
the session slot was clobbered): a schema-known field is stored into
`self.data` after the entity-to-reference conversion (a TypeError if the data
slot no longer holds a dict), and anything else raises
AidboxResourceFieldDoesNotExist naming the field and the resource type. -/
def AidboxResource.setattr (r : AidboxResource) (key : String) (value : RVal) :
    Except AErr AidboxResource :=
  if key ∈ dirNames then
    if key = "root_attrs" then .error .attributeError
    else if key = "meta" then .ok { r with meta := value }
    else if key = "resource_type" then .ok { r with resource_type := value }
    else if key = "data" then .ok { r with data := value }
    else if key = "aidbox" then
      .ok { r with aidbox := none, slots := dictUpdate r.slots "aidbox" value }
    else .ok { r with slots := dictUpdate r.slots key value }
  else
    match r.aidbox with
    | none => .error .attributeError
    | some sf =>
      if key ∈ sf (rtName r.resource_type) then
        match r.data with
        | .robj fs =>
          .ok { r with data := .robj (dictUpdate fs key (convertValue value)) }
        | _ => .error .typeError
      else .error (.fieldDoesNotExist key (rtName r.resource_type))

/-- Models `AidboxResource.__getattr__`, which Python invokes for exactly the
reads whose name is not an instance or class attribute (so for every
`key ∉ dirNames`): the live `self.root_attrs` is consulted (AttributeError on a
clobbered session), a schema-known field reads `self.data.get(key, None)`
(AttributeError when the data slot no longer holds a dict), and anything else
raises AidboxResourceFieldDoesNotExist. -/
def AidboxResource.getattr (r : AidboxResource) (key : String) : Except AErr RVal :=
  match r.aidbox with
  | none => .error .attributeError
  | some sf =>
    if key ∈ sf (rtName r.resource_type) then
      match r.data with
      | .robj fs => .ok ((dlookup fs key).getD .rnull)
      | _ => .error .attributeError
    else .error (.fieldDoesNotExist key (rtName r.resource_type))

/-- The assignment loop at the end of `AidboxResource.__init__`: each field goes
through `setattr`; the `except AidboxResourceFieldDoesNotExist` handler
swallows exactly that exception when `skip_validation` is set and re-raises it
otherwise; every other exception (TypeError, AttributeError) propagates
regardless of the flag. -/
def initFields (skip : Bool) : AidboxResource → Dict → Except AErr AidboxResource
  | r, [] => .ok r
  | r, (k, v) :: rest =>
    match r.setattr k v with
    | .ok r1 => initFields skip r1 rest
    | .error (.fieldDoesNotExist f t) =>
      if skip then initFields skip r rest else .error (.fieldDoesNotExist f t)
    | .error e => .error e

/-- `kwargs.get(resource_type)` as read at the top of `__init__`. -/
def rtvOf (kwargs : Dict) : RVal := (dlookup kwargs "resource_type").getD .rnull

/-- The kwargs left for the assignment loop after `kwargs.pop(meta, {})`. -/
def initRest (kwargs : Dict) : Dict := kwargs.filter fun kv => kv.1 != "meta"

/-- The entity state after `__init__`'s own slot initialisation (`self.data = {}`,
`self.aidbox = aidbox`, `self.resource_type = kwargs.get(resource_type)`,
`self.meta = kwargs.pop(meta, {})`) and the `_fetch_schema` call, before the
assignment loop runs.  `schemaOf` gives, per resource type, the schema set that
`_fetch_schema` leaves in the session cache (its fetch counting is modelled
separately by `fetch_schema`); the constructor's own assignments pass the real
session and a fresh dict, so the slots start intact. -/
def initBase (schemaOf : String → Schema) (kwargs : Dict) : AidboxResource :=
  { aidbox := some schemaOf, resource_type := rtvOf kwargs,
    meta := (dlookup kwargs "meta").getD (.robj []), data := .robj [],
    slots := [] }

/-- Models `AidboxResource.__init__`: the slot initialisation followed by the
validated assignment loop over the remaining kwargs in order. -/
def AidboxResource.init (schemaOf : String → Schema) (skip : Bool)
    (kwargs : Dict) : Except AErr AidboxResource :=
  initFields skip (initBase schemaOf kwargs) (initRest kwargs)

/-- One step of the assignment loop as a total fold: a failing assignment
leaves the instance unchanged.  This is the loop's behaviour on the inputs the
equality `initFields_skip_eq` below is stated for, where every raised exception
is an AidboxResourceFieldDoesNotExist and `skip_validation` swallows it. -/
def stepSkip (r : AidboxResource) (kv : String × RVal) : AidboxResource :=
  match r.setattr kv.1 kv.2 with
  | .ok r1 => r1
  | .error _ => r

/-- The assignment loop as a fold of `stepSkip`. -/
def runSkip (r : AidboxResource) (kws : Dict) : AidboxResource := kws.foldl stepSkip r

/-- The entity the skip-validation constructor yields on payloads whose field
names do not collide with the internal attribute names (`initFields_skip_eq`
proves `init` returns exactly this entity there). -/
def AidboxResource.initSkip (schemaOf : String → Schema) (kwargs : Dict) :
    AidboxResource :=
  runSkip (initBase schemaOf kwargs) (initRest kwargs)

/-- An AidboxResource value, as passed around when one entity is assigned as a
field of another (`isinstance(value, AidboxResource)`). -/
def AidboxResource.toVal (r : AidboxResource) : RVal :=
  .rres (rtName r.resource_type) r.dataFields

/-- Models the factory `Aidbox.resource(resource_type, **kwargs)` (with the
`skip_validation` keyword forwarded through kwargs): it sets
`kwargs[resource_type] = resource_type` and constructs an AidboxResource. -/
def Aidbox.resource (schemaOf : String → Schema) (rt : String) (skip : Bool)
    (kw : Dict) : Except AErr AidboxResource :=
  AidboxResource.init schemaOf skip (dictUpdate kw "resource_type" (.rstr rt))

/-- Models the call `self.aidbox.resource(skip_validation=True, **res_data)` in
`AidboxSearchSet.get`: `resource_type` is a required positional parameter of the
factory, so a payload without a `resource_type` key raises a TypeError. -/
def Aidbox.resource_skip_payload (schemaOf : String → Schema) (kw : Dict) :
    Except AErr AidboxResource :=
  match dlookup kw "resource_type" with
  | none => .error .typeError
  | some rtv =>
    match rtv with
    | .rstr rt => Aidbox.resource schemaOf rt true kw
    | _ => AidboxResource.init schemaOf true kw

/-- A heap of parameter dicts.  The source's chain operations mutate
`self.params` in place and then hand the same dict object to the next builder,
so dict identity is observable; builders therefore hold an index into this
store rather than a dict value. -/
structure Store where
  dicts : List Dict

/-- Dereference a dict (an index always comes from `alloc`, so it is in range). -/
def Store.get (st : Store) (i : Nat) : Dict := (st.dicts[i]?).getD []

/-- Overwrite the dict at an index. -/
def Store.set (st : Store) (i : Nat) (d : Dict) : Store := ⟨st.dicts.set i d⟩

/-- Allocate a fresh dict object. -/
def Store.alloc (st : Store) (d : Dict) : Nat × Store :=
  (st.dicts.length, ⟨st.dicts ++ [d]⟩)

/-- An AidboxSearchSet: the target resource type and the identity of its
params dict. -/
structure AidboxSearchSet where
  resource_type : String
  paramsRef : Nat

/-- Models `AidboxSearchSet.__init__(aidbox, resource_type, params=None)`:
`self.params = params if params else {}` — a missing params argument *or a
passed dict that is empty* (Python truthiness) yields a fresh `{}`; a passed
non-empty dict is shared by reference. -/
def mkSearchSet (rt : String) (p : Option Nat) (st : Store) :
    AidboxSearchSet × Store :=
  match p with
  | none =>
    let a := st.alloc []
    (⟨rt, a.1⟩, a.2)
  | some i =>
    if (st.get i).isEmpty then
      let a := st.alloc []
      (⟨rt, a.1⟩, a.2)
    else (⟨rt, i⟩, st)

/-- Models the factory `Aidbox.resources(resource_type)`. -/
def Aidbox.resources (rt : String) (st : Store) : AidboxSearchSet × Store :=
  mkSearchSet rt none st

/-- Models `AidboxSearchSet.search(**kwargs)`: `self.params.update(kwargs)`
mutates the current dict in place, then the new builder is constructed with
that same dict. -/
def AidboxSearchSet.search (ss : AidboxSearchSet) (kwargs : Dict) (st : Store) :
    AidboxSearchSet × Store :=
  let st1 := st.set ss.paramsRef (dictUpdateMany (st.get ss.paramsRef) kwargs)
  mkSearchSet ss.resource_type (some ss.paramsRef) st1

/-- Models `AidboxSearchSet.limit(limit)`: sets `self.params[_count]` in place,
then constructs the new builder with the same dict. -/
def AidboxSearchSet.limit (ss : AidboxSearchSet) (n : Int) (st : Store) :
    AidboxSearchSet × Store :=
  let st1 := st.set ss.paramsRef (dictUpdate (st.get ss.paramsRef) "_count" (.rint n))
  mkSearchSet ss.resource_type (some ss.paramsRef) st1

/-- Models `AidboxSearchSet.page(page)`: sets `self.params[_page]` in place,
then constructs the new builder with the same dict. -/
def AidboxSearchSet.page (ss : AidboxSearchSet) (p : Int) (st : Store) :
    AidboxSearchSet × Store :=
  let st1 := st.set ss.paramsRef (dictUpdate (st.get ss.paramsRef) "_page" (.rint p))
  mkSearchSet ss.resource_type (some ss.paramsRef) st1

/-- The `keys` argument of `AidboxSearchSet.sort`: a single key or a list. -/
inductive SortKeys where
  | single (k : String)
  | many (ks : List String)

/-- `','.join(keys) if isinstance(keys, list) else keys`. -/
def joinKeys : SortKeys → String
  | .single k => k
  | .many ks => String.intercalate "," ks

/-- Models `AidboxSearchSet.sort(keys)`: joins list keys with a comma preserving
order, sets `self.params[_sort]` in place, then constructs the new builder with
the same dict. -/
def AidboxSearchSet.sort (ss : AidboxSearchSet) (keys : SortKeys) (st : Store) :
    AidboxSearchSet × Store :=
  let st1 := st.set ss.paramsRef
    (dictUpdate (st.get ss.paramsRef) "_sort" (.rstr (joinKeys keys)))
  mkSearchSet ss.resource_type (some ss.paramsRef) st1

/-- Python `payload[key]` on a decoded JSON value: KeyError when the key is
missing, TypeError when the value is not a dict. -/
def payloadIndex (p : RVal) (k : String) : Except AErr RVal :=
  match p with
  | .robj fs =>
    match dlookup fs k with
    | some v => .ok v
    | none => .error (.keyError k)
  | _ => .error .typeError

/-- A decoded JSON value used as a list. -/
def asArr : RVal → Except AErr (List RVal)
  | .rarr xs => .ok xs
  | _ => .error .typeError

/-- A decoded JSON value unpacked as keyword arguments (`**data`), which
requires a dict. -/
def asObj : RVal → Except AErr Dict
  | .robj fs => .ok fs
  | _ => .error .typeError

/-- A Python list comprehension over fallible element expressions: elements are
evaluated left to right and the first raised exception propagates. -/
def emapM (f : RVal → Except AErr RVal) : List RVal → Except AErr (List RVal)
  | [] => .ok []
  | a :: rest => (f a).bind fun b => (emapM f rest).map fun bs => b :: bs

/-- As `emapM`, for the comprehension that wraps each entry into a resource. -/
def emapRes (f : RVal → Except AErr AidboxResource) :
    List RVal → Except AErr (List AidboxResource)
  | [] => .ok []
  | a :: rest => (f a).bind fun b => (emapRes f rest).map fun bs => b :: bs

/-- Models `AidboxSearchSet.get(id)`: one fetch of `resource_type/id` with no
query parameters (the accumulated filter params are not passed), 404 mapped to
AidboxResourceNotFound, and a successful payload wrapped through
`self.aidbox.resource(skip_validation=True, **res_data)`. -/
def AidboxSearchSet.get (schemaOf : String → Schema) (ss : AidboxSearchSet)
    (id : String) (resp : Response) : Request × Except AErr AidboxResource :=
  let fr := fetch_resource (ss.resource_type ++ "/" ++ id) [] resp
  (fr.1, fr.2.bind fun payload =>
    (asObj payload).bind fun kw =>
    Aidbox.resource_skip_payload schemaOf kw)

/-- Models `AidboxSearchSet.all()`: one fetch of the collection endpoint with
the accumulated params, then `[res.resource for res in res_data.entry]` and one
skip-validation AidboxResource per entry, in response order. -/
def AidboxSearchSet.all (schemaOf : String → Schema) (ss : AidboxSearchSet)
    (st : Store) (resp : Response) : Request × Except AErr (List AidboxResource) :=
  let fr := fetch_resource ss.resource_type (st.get ss.paramsRef) resp
  (fr.1, fr.2.bind fun payload =>
    (payloadIndex payload "entry").bind fun entry =>
    (asArr entry).bind fun es =>
    (emapM (fun e => payloadIndex e "resource") es).bind fun ds =>
    emapRes (fun d => (asObj d).bind fun kw => AidboxResource.init schemaOf true kw) ds)

/-- Models `AidboxSearchSet.count()`: one fetch of the collection endpoint whose
params are the literal dict with page size 1 and the count-mode flag — the
accumulated `self.params` are not consulted — returning `payload[total]`. -/
def AidboxSearchSet.count (ss : AidboxSearchSet) (_st : Store) (resp : Response) :
    Request × Except AErr RVal :=
  let fr := fetch_resource ss.resource_type
    [("_count", .rint 1), ("_totalMethod", .rstr "count")] resp
  (fr.1, fr.2.bind fun payload => payloadIndex payload "total")

/-
  Lemma layer: behaviour of the validated-assignment loop.
-/

theorem convertValue_of_not_res (v : RVal) (h : isResVal v = false) :
    convertValue v = v := by
  cases v <;> first | rfl | simp [isResVal] at h

@[simp] theorem dkeys_nil : dkeys [] = [] := rfl

@[simp] theorem dkeys_cons (kv : String × RVal) (rest : Dict) :
    dkeys (kv :: rest) = kv.1 :: dkeys rest := rfl

theorem dlookup_of_mem_nodup (d : Dict) (k : String) (v : RVal)
    (hnd : (dkeys d).Nodup) (h : (k, v) ∈ d) : dlookup d k = some v := by
  induction d with
  | nil => simp at h
  | cons kv rest ih =>
    obtain ⟨k1, v1⟩ := kv
    rw [dkeys_cons] at hnd
    have hnd1 := List.nodup_cons.mp hnd
    rcases List.mem_cons.mp h with he | hm
    · simp only [Prod.mk.injEq] at he
      obtain ⟨he1, he2⟩ := he
      subst he1
      subst he2
      simp
    · have hkmem : k ∈ dkeys rest := List.mem_map_of_mem Prod.fst hm
      have hne : k1 ≠ k := fun he => hnd1.1 (he.symm ▸ hkmem)
      simp only [dlookup_cons, if_neg hne]
      exact ih hnd1.2 hm

/-- The sanity condition on a payload field name: it does not collide with the
entity's internal attribute names, except `resource_type` and `meta`, which the
constructor reads explicitly.  An assignment under it never touches the
`data`/`aidbox` slots and never hits the setterless `root_attrs` property. -/
def saneKey (k : String) : Prop :=
  k ∉ dirNames ∨ k = "resource_type" ∨ k = "meta"

/-- A sane entry relative to the resource-type value the constructor read: a
`resource_type` entry must carry that same value (in the constructor's kwargs
that value is what `kwargs.get(resource_type)` returned), so replaying it
leaves the consulted schema set unchanged. -/
def saneEntry (rtv : RVal) (kv : String × RVal) : Prop :=
  kv.1 ∉ dirNames ∨ (kv.1 = "resource_type" ∧ kv.2 = rtv) ∨ kv.1 = "meta"

/-- An entity whose session and data slots are intact. -/
def intactShape (sf : String → Schema) (r : AidboxResource) : Prop :=
  r.aidbox = some sf ∧ ∃ fs, r.data = .robj fs

/-- An entity whose session, resource-type and data slots are intact. -/
def intactAt (sf : String → Schema) (rtv : RVal) (r : AidboxResource) : Prop :=
  r.aidbox = some sf ∧ r.resource_type = rtv ∧ ∃ fs, r.data = .robj fs

theorem saneEntry_key (rtv : RVal) (kv : String × RVal) (h : saneEntry rtv kv) :
    saneKey kv.1 := by
  rcases h with h | ⟨h, _⟩ | h
  · exact Or.inl h
  · exact Or.inr (Or.inl h)
  · exact Or.inr (Or.inr h)

theorem saneKeys_of_entries (rtv : RVal) (kws : Dict)
    (h : ∀ kv ∈ kws, saneEntry rtv kv) : ∀ k ∈ dkeys kws, saneKey k := by
  intro k hk
  simp only [dkeys, List.mem_map] at hk
  obtain ⟨kv, hkv, he⟩ := hk
  exact he ▸ saneEntry_key rtv kv (h kv hkv)

theorem setattr_cases_sane (sf : String → Schema) (r : AidboxResource)
    (k : String) (v : RVal) (hA : r.aidbox = some sf) (fs : Dict)
    (hD : r.data = .robj fs) (hk : saneKey k) :
    (k = "meta" ∧ r.setattr k v = .ok { r with meta := v }) ∨
    (k = "resource_type" ∧
      r.setattr k v = .ok { r with resource_type := v }) ∨
    (k ∉ dirNames ∧ k ∈ sf (rtName r.resource_type) ∧
      r.setattr k v
        = .ok { r with data := .robj (dictUpdate fs k (convertValue v)) }) ∨
    (k ∉ dirNames ∧
      r.setattr k v = .error (.fieldDoesNotExist k (rtName r.resource_type))) := by
  rcases hk with hk | hk | hk
  · by_cases hm : k ∈ sf (rtName r.resource_type)
    · refine Or.inr (Or.inr (Or.inl ⟨hk, hm, ?_⟩))
      simp [AidboxResource.setattr, hk, hA, hD, hm]
    · refine Or.inr (Or.inr (Or.inr ⟨hk, ?_⟩))
      simp [AidboxResource.setattr, hk, hA, hD, hm]
  · subst hk
    exact Or.inr (Or.inl ⟨rfl, rfl⟩)
  · subst hk
    exact Or.inl ⟨rfl, rfl⟩

theorem stepSkip_intactShape (sf : String → Schema) (r : AidboxResource)
    (kv : String × RVal) (hr : intactShape sf r) (hk : saneKey kv.1) :
    intactShape sf (stepSkip r kv) := by
  obtain ⟨hA, fs, hD⟩ := hr
  obtain ⟨k0, v0⟩ := kv
  rcases setattr_cases_sane sf r k0 v0 hA fs hD hk
    with ⟨_, hs⟩ | ⟨_, hs⟩ | ⟨_, _, hs⟩ | ⟨_, hs⟩
  · simp only [stepSkip, hs]
    exact ⟨hA, fs, hD⟩
  · simp only [stepSkip, hs]
    exact ⟨hA, fs, hD⟩
  · simp only [stepSkip, hs]
    exact ⟨hA, dictUpdate fs k0 (convertValue v0), rfl⟩
  · simp only [stepSkip, hs]
    exact ⟨hA, fs, hD⟩

theorem stepSkip_intactAt (sf : String → Schema) (rtv : RVal)
    (r : AidboxResource) (kv : String × RVal) (hr : intactAt sf rtv r)
    (hk : saneEntry rtv kv) : intactAt sf rtv (stepSkip r kv) := by
  obtain ⟨hA, hT, fs, hD⟩ := hr
  obtain ⟨k0, v0⟩ := kv
  rcases setattr_cases_sane sf r k0 v0 hA fs hD (saneEntry_key rtv (k0, v0) hk)
    with ⟨hm, hs⟩ | ⟨hm, hs⟩ | ⟨_, _, hs⟩ | ⟨_, hs⟩
  · simp only [stepSkip, hs]
    exact ⟨hA, hT, fs, hD⟩
  · have hv : v0 = rtv := by
      rcases hk with h1 | ⟨_, h1⟩ | h1
      · exact absurd (show k0 ∈ dirNames by rw [hm]; decide) h1
      · exact h1
      · exact absurd (hm.symm.trans h1) (by decide)
    simp only [stepSkip, hs]
    exact ⟨hA, hv, fs, hD⟩
  · simp only [stepSkip, hs]
    exact ⟨hA, hT, dictUpdate fs k0 (convertValue v0), rfl⟩
  · simp only [stepSkip, hs]
    exact ⟨hA, hT, fs, hD⟩

theorem stepSkip_dataFields_ne (sf : String → Schema) (r : AidboxResource)
    (k0 k : String) (v0 : RVal) (hr : intactShape sf r) (hk : saneKey k0)
    (hne : k0 ≠ k) :
    dlookup (stepSkip r (k0, v0)).dataFields k = dlookup r.dataFields k := by
  obtain ⟨hA, fs, hD⟩ := hr
  rcases setattr_cases_sane sf r k0 v0 hA fs hD hk
    with ⟨_, hs⟩ | ⟨_, hs⟩ | ⟨_, _, hs⟩ | ⟨_, hs⟩
  · simp only [stepSkip, hs]
    rfl
  · simp only [stepSkip, hs]
    rfl
  · simp only [stepSkip, hs, AidboxResource.dataFields, hD]
    exact dlookup_dictUpdate_ne fs k0 k (convertValue v0) hne
  · simp only [stepSkip, hs]

theorem stepSkip_dataFields_of_not_attr (sf : String → Schema) (rtv : RVal)
    (r : AidboxResource) (kv : String × RVal) (k : String)
    (hr : intactAt sf rtv r) (hk : saneEntry rtv kv)
    (hna : k ∉ sf (rtName rtv)) :
    dlookup (stepSkip r kv).dataFields k = dlookup r.dataFields k := by
  obtain ⟨hA, hT, fs, hD⟩ := hr
  obtain ⟨k0, v0⟩ := kv
  rcases setattr_cases_sane sf r k0 v0 hA fs hD (saneEntry_key rtv (k0, v0) hk)
    with ⟨_, hs⟩ | ⟨_, hs⟩ | ⟨_, hm, hs⟩ | ⟨_, hs⟩
  · simp only [stepSkip, hs]
    rfl
  · simp only [stepSkip, hs]
    rfl
  · have hne : k0 ≠ k := by
      intro he
      rw [hT] at hm
      rw [he] at hm
      exact hna hm
    simp only [stepSkip, hs, AidboxResource.dataFields, hD]
    exact dlookup_dictUpdate_ne fs k0 k (convertValue v0) hne
  · simp only [stepSkip, hs]

theorem runSkip_intactShape (sf : String → Schema) (kws : Dict) :
    ∀ r : AidboxResource, intactShape sf r → (∀ k ∈ dkeys kws, saneKey k) →
      intactShape sf (runSkip r kws) := by
  induction kws with
  | nil => intro r hr _; exact hr
  | cons kv rest ih =>
    intro r hr hsane
    show intactShape sf (runSkip (stepSkip r kv) rest)
    refine ih _ (stepSkip_intactShape sf r kv hr (hsane kv.1 ?_)) ?_
    · rw [dkeys_cons]
      exact List.mem_cons_self _ _
    · intro k hk
      refine hsane k ?_
      rw [dkeys_cons]
      exact List.mem_cons_of_mem _ hk

theorem runSkip_intactAt (sf : String → Schema) (rtv : RVal) (kws : Dict) :
    ∀ r : AidboxResource, intactAt sf rtv r → (∀ kv ∈ kws, saneEntry rtv kv) →
      intactAt sf rtv (runSkip r kws) := by
  induction kws with
  | nil => intro r hr _; exact hr
  | cons kv rest ih =>
    intro r hr hsane
    show intactAt sf rtv (runSkip (stepSkip r kv) rest)
    exact ih _
      (stepSkip_intactAt sf rtv r kv hr (hsane kv (List.mem_cons_self kv rest)))
      (fun kv1 hkv1 => hsane kv1 (List.mem_cons_of_mem kv hkv1))

theorem runSkip_dataFields_of_not_key (sf : String → Schema) (kws : Dict) :
    ∀ (r : AidboxResource) (k : String), intactShape sf r →
      (∀ k1 ∈ dkeys kws, saneKey k1) → k ∉ dkeys kws →
      dlookup (runSkip r kws).dataFields k = dlookup r.dataFields k := by
  induction kws with
  | nil => intro r k _ _ _; rfl
  | cons kv rest ih =>
    intro r k hr hsane hk
    obtain ⟨k0, v0⟩ := kv
    rw [dkeys_cons] at hk
    have hne : k0 ≠ k := fun he => hk (List.mem_cons.mpr (Or.inl he.symm))
    have hk2 : k ∉ dkeys rest := fun h2 => hk (List.mem_cons.mpr (Or.inr h2))
    have hs0 : saneKey k0 := hsane k0 (by rw [dkeys_cons]; exact List.mem_cons_self _ _)
    have hsrest : ∀ k1 ∈ dkeys rest, saneKey k1 :=
      fun k1 h1 => hsane k1 (by rw [dkeys_cons]; exact List.mem_cons_of_mem _ h1)
    show dlookup (runSkip (stepSkip r (k0, v0)) rest).dataFields k
      = dlookup r.dataFields k
    rw [ih _ _ (stepSkip_intactShape sf r (k0, v0) hr hs0) hsrest hk2,
      stepSkip_dataFields_ne sf r k0 k v0 hr hs0 hne]

theorem runSkip_dataFields_of_not_attr (sf : String → Schema) (rtv : RVal)
    (kws : Dict) :
    ∀ (r : AidboxResource) (k : String), intactAt sf rtv r →
      (∀ kv ∈ kws, saneEntry rtv kv) → k ∉ sf (rtName rtv) →
      dlookup (runSkip r kws).dataFields k = dlookup r.dataFields k := by
  induction kws with
  | nil => intro r k _ _ _; rfl
  | cons kv rest ih =>
    intro r k hr hsane hna
    have hs0 : saneEntry rtv kv := hsane kv (List.mem_cons_self kv rest)
    have hsrest : ∀ kv1 ∈ rest, saneEntry rtv kv1 :=
      fun kv1 h1 => hsane kv1 (List.mem_cons_of_mem kv h1)
    show dlookup (runSkip (stepSkip r kv) rest).dataFields k
      = dlookup r.dataFields k
    rw [ih _ _ (stepSkip_intactAt sf rtv r kv hr hs0) hsrest hna,
      stepSkip_dataFields_of_not_attr sf rtv r kv k hr hs0 hna]

theorem runSkip_dataFields_of_lookup (sf : String → Schema) (rtv : RVal)
    (kws : Dict) :
    ∀ (r : AidboxResource) (k : String) (v : RVal), intactAt sf rtv r →
      (∀ kv ∈ kws, saneEntry rtv kv) → (dkeys kws).Nodup →
      dlookup kws k = some v → k ∉ dirNames → k ∈ sf (rtName rtv) →
      dlookup (runSkip r kws).dataFields k = some (convertValue v) := by
  induction kws with
  | nil => intro r k v _ _ _ hl _ _; simp at hl
  | cons kv rest ih =>
    intro r k v hr hsane hnd hl hdir hattr
    obtain ⟨k0, v0⟩ := kv
    obtain ⟨hA, hT, fs, hD⟩ := hr
    rw [dkeys_cons] at hnd
    have hnd1 := List.nodup_cons.mp hnd
    have hs0 : saneEntry rtv (k0, v0) := hsane _ (List.mem_cons_self _ _)
    have hsrest : ∀ kv1 ∈ rest, saneEntry rtv kv1 :=
      fun kv1 h1 => hsane kv1 (List.mem_cons_of_mem _ h1)
    show dlookup (runSkip (stepSkip r (k0, v0)) rest).dataFields k
      = some (convertValue v)
    by_cases h0 : k0 = k
    · subst h0
      have hv : v0 = v := by simpa using hl
      subst hv
      have hm : k0 ∈ sf (rtName r.resource_type) := by
        rw [hT]
        exact hattr
      have hs : r.setattr k0 v0
          = .ok { r with data := .robj (dictUpdate fs k0 (convertValue v0)) } := by
        simp [AidboxResource.setattr, hdir, hA, hD, hm]
      have hstep : stepSkip r (k0, v0)
          = { r with data := .robj (dictUpdate fs k0 (convertValue v0)) } := by
        simp [stepSkip, hs]
      rw [hstep]
      rw [runSkip_dataFields_of_not_key sf rest
          { r with data := .robj (dictUpdate fs k0 (convertValue v0)) } k0
          ⟨hA, dictUpdate fs k0 (convertValue v0), rfl⟩
          (saneKeys_of_entries rtv rest hsrest) hnd1.1]
      simp [AidboxResource.dataFields, dlookup_dictUpdate_self]
    · have hl1 : dlookup rest k = some v := by simpa [h0] using hl
      exact ih _ _ _
        (stepSkip_intactAt sf rtv r (k0, v0) ⟨hA, hT, fs, hD⟩ hs0) hsrest
        hnd1.2 hl1 hdir hattr

theorem initFields_skip_eq (sf : String → Schema) (kws : Dict) :
    ∀ r : AidboxResource, intactShape sf r → (∀ k ∈ dkeys kws, saneKey k) →
      initFields true r kws = .ok (runSkip r kws) := by
  induction kws with
  | nil => intro r _ _; rfl
  | cons kv rest ih =>
    intro r hr hsane
    obtain ⟨k0, v0⟩ := kv
    obtain ⟨hA, fs, hD⟩ := hr
    have hs0 : saneKey k0 :=
      hsane k0 (by rw [dkeys_cons]; exact List.mem_cons_self _ _)
    have hsrest : ∀ k1 ∈ dkeys rest, saneKey k1 :=
      fun k1 h1 => hsane k1 (by rw [dkeys_cons]; exact List.mem_cons_of_mem _ h1)
    show initFields true r ((k0, v0) :: rest)
      = .ok (runSkip (stepSkip r (k0, v0)) rest)
    rcases setattr_cases_sane sf r k0 v0 hA fs hD hs0
      with ⟨_, hs⟩ | ⟨_, hs⟩ | ⟨_, _, hs⟩ | ⟨_, hs⟩
    · simp only [initFields, hs, stepSkip]
      exact ih _ ⟨hA, fs, hD⟩ hsrest
    · simp only [initFields, hs, stepSkip]
      exact ih _ ⟨hA, fs, hD⟩ hsrest
    · simp only [initFields, hs, stepSkip]
      exact ih _ ⟨hA, dictUpdate fs k0 (convertValue v0), rfl⟩ hsrest
    · have h1 : initFields true r ((k0, v0) :: rest) = initFields true r rest := by
        simp [initFields, hs]
      have h2 : stepSkip r (k0, v0) = r := by
        simp [stepSkip, hs]
      rw [h1, h2]
      exact ih _ ⟨hA, fs, hD⟩ hsrest

theorem saneKeys_of_rest (kwargs : Dict)
    (hsane : ∀ k ∈ dkeys kwargs, saneKey k) :
    ∀ k ∈ dkeys (initRest kwargs), saneKey k := by
  intro k hk
  simp only [initRest, dkeys, List.mem_map] at hk
  obtain ⟨kv, hkv, he⟩ := hk
  exact hsane k
    (he ▸ List.mem_map_of_mem Prod.fst (List.mem_of_mem_filter hkv))

theorem saneEntries_of_rest (kwargs : Dict) (hnd : (dkeys kwargs).Nodup)
    (hsane : ∀ k ∈ dkeys kwargs, saneKey k) :
    ∀ kv ∈ initRest kwargs, saneEntry (rtvOf kwargs) kv := by
  intro kv hkv
  have hmem : kv ∈ kwargs := List.mem_of_mem_filter hkv
  have hkey : saneKey kv.1 := hsane kv.1 (List.mem_map_of_mem Prod.fst hmem)
  rcases hkey with h | h | h
  · exact Or.inl h
  · refine Or.inr (Or.inl ⟨h, ?_⟩)
    have hl : dlookup kwargs kv.1 = some kv.2 :=
      dlookup_of_mem_nodup kwargs kv.1 kv.2 hnd ((by simp : (kv.1, kv.2) = kv) ▸ hmem)
    rw [h] at hl
    simp [rtvOf, hl]
  · have hf := List.mem_filter.mp hkv
    rw [h] at hf
    simp at hf

theorem init_skip_eq (schemaOf : String → Schema) (kwargs : Dict)
    (hsane : ∀ k ∈ dkeys kwargs, saneKey k) :
    AidboxResource.init schemaOf true kwargs
      = .ok (AidboxResource.initSkip schemaOf kwargs) :=
  initFields_skip_eq schemaOf (initRest kwargs) (initBase schemaOf kwargs)
    ⟨rfl, [], rfl⟩ (saneKeys_of_rest kwargs hsane)

theorem initSkip_intactAt (schemaOf : String → Schema) (kwargs : Dict)
    (hnd : (dkeys kwargs).Nodup) (hsane : ∀ k ∈ dkeys kwargs, saneKey k) :
    intactAt schemaOf (rtvOf kwargs) (AidboxResource.initSkip schemaOf kwargs) :=
  runSkip_intactAt schemaOf (rtvOf kwargs) (initRest kwargs)
    (initBase schemaOf kwargs) ⟨rfl, rfl, [], rfl⟩
    (saneEntries_of_rest kwargs hnd hsane)

theorem initSkip_root_attrs_eq (schemaOf : String → Schema) (kwargs : Dict)
    (hnd : (dkeys kwargs).Nodup) (hsane : ∀ k ∈ dkeys kwargs, saneKey k) :
    (AidboxResource.initSkip schemaOf kwargs).root_attrs
      = schemaOf (rtName (rtvOf kwargs)) := by
  obtain ⟨hA, hT, _, _⟩ := initSkip_intactAt schemaOf kwargs hnd hsane
  simp [AidboxResource.root_attrs, hA, hT]

theorem dlookup_filter_ne_meta (kwargs : Dict) (k : String) (h : k ≠ "meta") :
    dlookup (kwargs.filter fun kv => kv.1 != "meta") k = dlookup kwargs k := by
  induction kwargs with
  | nil => rfl
  | cons kv rest ih =>
    obtain ⟨k1, v1⟩ := kv
    by_cases h1 : k1 = "meta"
    · subst h1
      have hne : ¬ ("meta" = k) := fun he => h he.symm
      simp [List.filter_cons, ih, hne]
    · simp [List.filter_cons, h1, ih]

theorem nodup_dkeys_filter (kwargs : Dict)
    (h : (dkeys kwargs).Nodup) :
    (dkeys (kwargs.filter fun kv => kv.1 != "meta")).Nodup := by
  have hs : List.Sublist (kwargs.filter fun kv => kv.1 != "meta") kwargs :=
    List.filter_sublist kwargs
  exact h.sublist (hs.map Prod.fst)

theorem setattr_preserves_inv (sf : String → Schema) (rtv : RVal)
    (r r1 : AidboxResource) (key : String) (v : RVal)
    (hr : intactAt sf rtv r)
    (hk1 : key ≠ "data") (hk2 : key ≠ "resource_type") (hk3 : key ≠ "aidbox")
    (h : r.setattr key v = .ok r1)
    (hinv : ∀ k, (dlookup r.dataFields k).isSome → k ∈ sf (rtName rtv)) :
    intactAt sf rtv r1 ∧
      ∀ k, (dlookup r1.dataFields k).isSome → k ∈ sf (rtName rtv) := by
  obtain ⟨hA, hT, fs, hD⟩ := hr
  by_cases hdir : key ∈ dirNames
  · by_cases hra : key = "root_attrs"
    · rw [hra] at h
      simp [AidboxResource.setattr,
        (by decide : ("root_attrs" : String) ∈ dirNames)] at h
    · by_cases hme : key = "meta"
      · rw [hme] at h
        simp [AidboxResource.setattr,
          (by decide : ("meta" : String) ∈ dirNames)] at h
        subst h
        exact ⟨⟨hA, hT, fs, hD⟩, hinv⟩
      · simp [AidboxResource.setattr, hdir, hra, hme, hk2, hk1, hk3] at h
        subst h
        exact ⟨⟨hA, hT, fs, hD⟩, hinv⟩
  · by_cases hm : key ∈ sf (rtName r.resource_type)
    · simp [AidboxResource.setattr, hdir, hA, hD, hm] at h
      subst h
      refine ⟨⟨rfl, hT, dictUpdate fs key (convertValue v), rfl⟩, ?_⟩
      intro k hk
      simp only [AidboxResource.dataFields] at hk
      rcases dlookup_dictUpdate_isSome fs key k (convertValue v) hk with h3 | h3
      · refine hinv k ?_
        simp [AidboxResource.dataFields, hD]
        exact h3
      · rw [h3, ← hT]
        exact hm
    · simp [AidboxResource.setattr, hdir, hA, hD, hm] at h

/-- Whether a construction succeeded (no exception escaped). -/
def isOkRes : Except AErr AidboxResource → Bool
  | .ok _ => true
  | .error _ => false

/-- Read a field of a freshly constructed entity, propagating a construction
error (`resource.field` right after the constructor call). -/
def readField (e : Except AErr AidboxResource) (k : String) : Except AErr RVal :=
  e.bind fun r => r.getattr k

/-- A well-formed search Bundle payload: a dict with an `entry` list whose
elements each wrap one resource dict under the key `resource`. -/
def mkBundle (ds : List Dict) : RVal :=
  .robj [("entry", .rarr (ds.map fun d => .robj [("resource", .robj d)]))]

theorem emapM_resource (ds : List Dict) :
    emapM (fun e => payloadIndex e "resource")
      (ds.map fun d => RVal.robj [("resource", RVal.robj d)])
      = .ok (ds.map RVal.robj) := by
  induction ds with
  | nil => rfl
  | cons d rest ih =>
    simp only [List.map_cons, emapM]
    rw [ih]
    simp [payloadIndex, Except.bind, Except.map]

theorem emapRes_init (schemaOf : String → Schema) (ds : List Dict)
    (hsane : ∀ d ∈ ds, ∀ k ∈ dkeys d, saneKey k) :
    emapRes (fun d => (asObj d).bind fun kw => AidboxResource.init schemaOf true kw)
      (ds.map RVal.robj)
      = .ok (ds.map (AidboxResource.initSkip schemaOf)) := by
  induction ds with
  | nil => rfl
  | cons d rest ih =>
    simp only [List.map_cons, emapRes]
    rw [ih (fun d1 h1 => hsane d1 (List.mem_cons_of_mem _ h1))]
    simp [asObj, init_skip_eq schemaOf d (hsane d (List.mem_cons_self _ _)),
      Except.bind, Except.map]

theorem all_on_bundle (schemaOf : String → Schema) (ss : AidboxSearchSet)
    (st : Store) (ds : List Dict)
    (hsane : ∀ d ∈ ds, ∀ k ∈ dkeys d, saneKey k) :
    (AidboxSearchSet.all schemaOf ss st (.ok (mkBundle ds))).2
      = .ok (ds.map (AidboxResource.initSkip schemaOf)) := by
  show (emapM (fun e => payloadIndex e "resource")
        (ds.map fun d => RVal.robj [("resource", RVal.robj d)])).bind
      (fun ds1 => emapRes
        (fun d => (asObj d).bind fun kw => AidboxResource.init schemaOf true kw) ds1)
      = .ok (ds.map (AidboxResource.initSkip schemaOf))
  rw [emapM_resource ds]
  show emapRes (fun d => (asObj d).bind fun kw => AidboxResource.init schemaOf true kw)
      (ds.map RVal.robj) = .ok (ds.map (AidboxResource.initSkip schemaOf))
  exact emapRes_init schemaOf ds hsane

theorem initFields_inv (sf : String → Schema) (rtv : RVal) (kws : Dict) :
    ∀ (skip : Bool) (r r0 : AidboxResource), intactAt sf rtv r →
      (∀ kv ∈ kws, saneEntry rtv kv) →
      initFields skip r kws = .ok r0 →
      (∀ k, (dlookup r.dataFields k).isSome → k ∈ sf (rtName rtv)) →
      intactAt sf rtv r0 ∧
        ∀ k, (dlookup r0.dataFields k).isSome → k ∈ sf (rtName rtv) := by
  induction kws with
  | nil =>
    intro skip r r0 hr _ h hinv
    simp [initFields] at h
    exact h ▸ ⟨hr, hinv⟩
  | cons kv rest ih =>
    intro skip r r0 hr hsane h hinv
    obtain ⟨k0, v0⟩ := kv
    obtain ⟨hA, hT, fs, hD⟩ := hr
    have hs0 : saneEntry rtv (k0, v0) := hsane _ (List.mem_cons_self _ _)
    have hsrest : ∀ kv1 ∈ rest, saneEntry rtv kv1 :=
      fun kv1 h1 => hsane kv1 (List.mem_cons_of_mem _ h1)
    rcases setattr_cases_sane sf r k0 v0 hA fs hD (saneEntry_key rtv _ hs0)
      with ⟨hm, hs⟩ | ⟨hm, hs⟩ | ⟨hm1, hm2, hs⟩ | ⟨hm1, hs⟩
    · simp only [initFields, hs] at h
      exact ih skip { r with meta := v0 } r0 ⟨hA, hT, fs, hD⟩ hsrest h hinv
    · have hv : v0 = rtv := by
        rcases hs0 with h1 | ⟨_, h1⟩ | h1
        · exact absurd (show k0 ∈ dirNames by rw [hm]; decide) h1
        · exact h1
        · exact absurd (hm.symm.trans h1) (by decide)
      simp only [initFields, hs] at h
      exact ih skip { r with resource_type := v0 } r0 ⟨hA, hv, fs, hD⟩ hsrest h hinv
    · simp only [initFields, hs] at h
      refine ih skip { r with data := .robj (dictUpdate fs k0 (convertValue v0)) }
        r0 ⟨hA, hT, dictUpdate fs k0 (convertValue v0), rfl⟩
        hsrest h ?_
      intro k hk
      simp only [AidboxResource.dataFields] at hk
      rcases dlookup_dictUpdate_isSome fs k0 k (convertValue v0) hk with h3 | h3
      · refine hinv k ?_
        simp [AidboxResource.dataFields, hD]
        exact h3
      · rw [h3, ← hT]
        exact hm2
    · rcases skip with _ | _
      · simp [initFields, hs] at h
      · simp only [initFields, hs] at h
        simp at h
        exact ih true _ r0 ⟨hA, hT, fs, hD⟩ hsrest h hinv

theorem initSkip_getattr_roundtrip (schemaOf : String → Schema) (kwargs : Dict)
    (k : String) (v : RVal) (hnd : (dkeys kwargs).Nodup)
    (hsane : ∀ k1 ∈ dkeys kwargs, saneKey k1)
    (hl : dlookup kwargs k = some v) (hdir : k ∉ dirNames)
    (hattr : k ∈ (AidboxResource.initSkip schemaOf kwargs).root_attrs)
    (hres : isResVal v = false) :
    (AidboxResource.initSkip schemaOf kwargs).getattr k = .ok v := by
  have hkm : k ≠ "meta" := fun he => hdir (by rw [he]; decide)
  have hattr1 : k ∈ schemaOf (rtName (rtvOf kwargs)) := by
    rw [initSkip_root_attrs_eq schemaOf kwargs hnd hsane] at hattr
    exact hattr
  have hlf : dlookup (initRest kwargs) k = some v := by
    show dlookup (kwargs.filter fun kv => kv.1 != "meta") k = some v
    rw [dlookup_filter_ne_meta kwargs k hkm]
    exact hl
  have hstep := runSkip_dataFields_of_lookup schemaOf (rtvOf kwargs)
    (initRest kwargs) (initBase schemaOf kwargs) k v ⟨rfl, rfl, [], rfl⟩
    (saneEntries_of_rest kwargs hnd hsane) (nodup_dkeys_filter kwargs hnd)
    hlf hdir hattr1
  rw [convertValue_of_not_res v hres] at hstep
  obtain ⟨hA, hT, fs, hD⟩ := initSkip_intactAt schemaOf kwargs hnd hsane
  have hfs : dlookup fs k = some v := by
    have he : (AidboxResource.initSkip schemaOf kwargs).dataFields = fs := by
      simp [AidboxResource.dataFields, hD]
    rw [← he]
    exact hstep
  simp only [AidboxResource.getattr, hA, hT]
  rw [if_pos hattr1, hD]
  simp [hfs]

theorem initSkip_dataFields_none (schemaOf : String → Schema) (kwargs : Dict)
    (k : String) (hnd : (dkeys kwargs).Nodup)
    (hsane : ∀ k1 ∈ dkeys kwargs, saneKey k1)
    (hk : k ∉ (AidboxResource.initSkip schemaOf kwargs).root_attrs) :
    dlookup (AidboxResource.initSkip schemaOf kwargs).dataFields k = none := by
  have hk1 : k ∉ schemaOf (rtName (rtvOf kwargs)) := by
    rw [initSkip_root_attrs_eq schemaOf kwargs hnd hsane] at hk
    exact hk
  have h := runSkip_dataFields_of_not_attr schemaOf (rtvOf kwargs)
    (initRest kwargs) (initBase schemaOf kwargs) k ⟨rfl, rfl, [], rfl⟩
    (saneEntries_of_rest kwargs hnd hsane) hk1
  exact h.trans rfl

theorem initSkip_getattr_raises (schemaOf : String → Schema) (kwargs : Dict)
    (k : String) (hnd : (dkeys kwargs).Nodup)
    (hsane : ∀ k1 ∈ dkeys kwargs, saneKey k1)
    (hk : k ∉ (AidboxResource.initSkip schemaOf kwargs).root_attrs) :
    (AidboxResource.initSkip schemaOf kwargs).getattr k
      = .error (.fieldDoesNotExist k
          (rtName (AidboxResource.initSkip schemaOf kwargs).resource_type)) := by
  obtain ⟨hA, hT, fs, hD⟩ := initSkip_intactAt schemaOf kwargs hnd hsane
  have hk1 : k ∉ schemaOf (rtName (rtvOf kwargs)) := by
    rw [initSkip_root_attrs_eq schemaOf kwargs hnd hsane] at hk
    exact hk
  simp only [AidboxResource.getattr, hA, hT]
  rw [if_neg hk1]

/-
  Concrete scenario data used by the claims.
-/

/-- A populated schema cache used in the scenarios: Patient has
`{id, name, birth_date}`, Practitioner has `{id, name}`. -/
def schemaOfPatient : String → Schema := fun rt =>
  if rt = "Patient" then ["id", "name", "birth_date"]
  else if rt = "Practitioner" then ["id", "name"] else ["id"]

/-- The kwargs of `Patient(name="Jane", unknown_field="x")`. -/
def kwJane : Dict := [("name", .rstr "Jane"), ("unknown_field", .rstr "x")]

/-- A server payload for a Patient carrying one field outside the schema. -/
def patientPayload : Dict :=
  [("resource_type", .rstr "Patient"), ("id", .rstr "p0"),
   ("name", .rstr "Jane"), ("extra_field", .rstr "x")]

/-- A server payload for `GET Patient/p1`. -/
def kwGet : Dict :=
  [("resource_type", .rstr "Patient"), ("id", .rstr "p1"),
   ("name", .rstr "John")]

/-- A search set over Patient (its params dict identity is irrelevant to `get`). -/
def ssPatient : AidboxSearchSet := ⟨"Patient", 0⟩

/-- A Patient entity with no data yet, owned by a session whose cache is
`schemaOfPatient`. -/
def rPat : AidboxResource :=
  { aidbox := some schemaOfPatient, resource_type := .rstr "Patient",
    meta := .robj [], data := .robj [], slots := [] }

/-- A Practitioner entity that already has a server-assigned id. -/
def ePract : AidboxResource :=
  { aidbox := some schemaOfPatient, resource_type := .rstr "Practitioner",
    meta := .robj [], data := .robj [("id", .rstr "pr1")], slots := [] }

/-- A `GET Patient/p1` payload whose `data` field collides with the entity's
internal data slot (as FHIR Binary payloads do): assigning it replaces
`self.data` by the string, and the next schema-field assignment raises a
TypeError that skip-validation does not catch. -/
def kwClobber : Dict :=
  [("resource_type", .rstr "Patient"), ("data", .rstr "x"),
   ("id", .rstr "p1")]

/-- A bundle-entry resource payload with the same `data` collision. -/
def entryClobber : Dict :=
  [("resource_type", .rstr "Patient"), ("data", .rstr "b64"),
   ("name", .rstr "Jane")]

/-- Two collision-free bundle-entry resource payloads. -/
def dsClean : List Dict :=
  [[("resource_type", .rstr "Patient"), ("id", .rstr "p2"),
    ("name", .rstr "Ann")],
   [("resource_type", .rstr "Patient"), ("id", .rstr "p3")]]

/-- A fresh builder straight from the factory: `aidbox.resources("Patient")`. -/
def freshPatientBuilder : AidboxSearchSet × Store :=
  Aidbox.resources "Patient" ⟨[]⟩

/-- A builder with the accumulated filter `status="active"`. -/
def statusBuilder : AidboxSearchSet × Store :=
  let a0 := Aidbox.resources "Patient" ⟨[]⟩
  a0.1.search [("status", .rstr "active")] a0.2

/-- The chained builder `search(name="Jane").limit(5).sort(["-birth_date","name"])`. -/
def janeChain : AidboxSearchSet × Store :=
  let a0 := Aidbox.resources "Patient" ⟨[]⟩
  let a1 := a0.1.search [("name", .rstr "Jane")] a0.2
  let a2 := a1.1.limit 5 a1.2
  a2.1.sort (.many ["-birth_date", "name"]) a2.2

/-- The parameter mapping the chained builder is expected to accumulate. -/
def janeParams : Dict :=
  [("name", .rstr "Jane"), ("_count", .rint 5),
   ("_sort", .rstr "-birth_date,name")]

/-- Attribute definitions the server returns for Patient in the C4 scenario. -/
def serverPatientAttrs : String → List (List String) :=
  fun _ => [["name"], ["birth_date"]]

/-- A session whose cache already holds the Patient schema produced by an empty
server-side attribute-definition list (just the fixed name id). -/
def sessionPatientCached : Aidbox := ⟨[("Patient", ["id"])]⟩

/-
  The claims.
-/

/-- Claim C1 (code bug at the claimed behaviour): on a builder whose accumulated
params are `{status: "active"}`, `count()` issues one fetch whose parameters are
the literal `{_count: 1, _totalMethod: "count"}` — the accumulated filters are
dropped, not merged as the claim states — and it does return the server's
reported integer total rather than a materialized list. -/
theorem c1_count_ignores_filters :
    statusBuilder.2.get statusBuilder.1.paramsRef
      = [("status", RVal.rstr "active")] ∧
    (∀ resp, (statusBuilder.1.count statusBuilder.2 resp).1
      = ⟨"Patient", [("_count", RVal.rint 1), ("_totalMethod", RVal.rstr "count")]⟩) ∧
    (∀ n : Int,
      (statusBuilder.1.count statusBuilder.2
          (.ok (.robj [("total", RVal.rint n)]))).2
        = .ok (RVal.rint n)) :=
  ⟨rfl, fun _ => rfl, fun _ => rfl⟩

/-- Claim C2 (code bug, the aliasing caveat of spec §9): `limit(5)` on a fresh
builder mutates the original builder's params dict in place (it goes from `{}`
to `{_count: 5}`) and the new builder shares the very same dict object, so the
original's parameter mapping is affected and the two builders are not
independent snapshots. -/
theorem c2_chain_aliasing_bug :
    freshPatientBuilder.2.get freshPatientBuilder.1.paramsRef = [] ∧
    (freshPatientBuilder.1.limit 5 freshPatientBuilder.2).2.get
        freshPatientBuilder.1.paramsRef = [("_count", RVal.rint 5)] ∧
    (freshPatientBuilder.1.limit 5 freshPatientBuilder.2).1.paramsRef
      = freshPatientBuilder.1.paramsRef :=
  ⟨rfl, rfl, rfl⟩

/-- Claim C3, counterexample to the claim as stated: a skip-validation
construction from a payload with the non-schema field `extra_field` succeeds,
but reading `extra_field` back raises AidboxResourceFieldDoesNotExist — the
field is not silently absent from reads. -/
theorem c3_unknown_read_raises :
    isOkRes (AidboxResource.init schemaOfPatient true patientPayload) = true ∧
    readField (AidboxResource.init schemaOfPatient true patientPayload)
        "extra_field"
      = .error (.fieldDoesNotExist "extra_field" "Patient") :=
  ⟨rfl, rfl⟩

/-- Claim C3 (amended): constructing an entity from a server payload in
skip-validation mode succeeds, reading back any schema-known payload field
returns the original value unchanged, and payload fields outside the schema are
silently dropped at construction — absent from the stored data — while reading
such a field afterwards raises the unknown-field error.  The sanity hypothesis
restricts payload field names from colliding with the object's internal
attribute names (other than `resource_type` and `meta`, which are handled
explicitly); such a collision would clobber internal state in the source. -/
theorem c3_skip_roundtrip (schemaOf : String → Schema) (kwargs : Dict)
    (hnd : (dkeys kwargs).Nodup)
    (hsane : ∀ k ∈ dkeys kwargs,
      k ∉ dirNames ∨ k = "resource_type" ∨ k = "meta") :
    AidboxResource.init schemaOf true kwargs
      = .ok (AidboxResource.initSkip schemaOf kwargs) ∧
    (∀ k v, dlookup kwargs k = some v →
      k ∈ (AidboxResource.initSkip schemaOf kwargs).root_attrs →
      k ∉ dirNames → isResVal v = false →
      (AidboxResource.initSkip schemaOf kwargs).getattr k = .ok v) ∧
    (∀ k, k ∉ (AidboxResource.initSkip schemaOf kwargs).root_attrs →
      dlookup (AidboxResource.initSkip schemaOf kwargs).dataFields k = none) ∧
    (∀ k, k ∉ (AidboxResource.initSkip schemaOf kwargs).root_attrs →
      (AidboxResource.initSkip schemaOf kwargs).getattr k
        = .error (.fieldDoesNotExist k
            (rtName (AidboxResource.initSkip schemaOf kwargs).resource_type))) := by
  refine ⟨init_skip_eq schemaOf kwargs hsane, ?_, ?_, ?_⟩
  · intro k v hl hattr hdir hres
    exact initSkip_getattr_roundtrip schemaOf kwargs k v hnd hsane hl hdir
      hattr hres
  · intro k hk
    exact initSkip_dataFields_none schemaOf kwargs k hnd hsane hk
  · intro k hk
    exact initSkip_getattr_raises schemaOf kwargs k hnd hsane hk

/-- Witness for C3: the amended round trip evaluated on a concrete Patient
payload — `name` reads back as Jane. -/
theorem c3_skip_roundtrip_witness :
    ((dkeys patientPayload).Nodup ∧
      ∀ k ∈ dkeys patientPayload,
        k ∉ dirNames ∨ k = "resource_type" ∨ k = "meta") ∧
    (AidboxResource.initSkip schemaOfPatient patientPayload).getattr "name"
      = .ok (.rstr "Jane") :=
  ⟨⟨by decide, by decide⟩,
    (c3_skip_roundtrip schemaOfPatient patientPayload (by decide)
        (by decide)).2.1 "name" (.rstr "Jane") rfl (by decide) (by decide) rfl⟩

/-- Claim C4: with the resource type not yet cached, the schema resolver
fetches once and caches; calling it again returns the identical attribute set,
makes no further network read, and leaves the session unchanged — one network
read per distinct resource type per session. -/
theorem c4_schema_resolver_cached (underscore : String → String)
    (server : String → List (List String)) (rt : String) (s : Aidbox)
    (hmiss : slookup s.schema rt = none)
    (heads : List String) (hwf : (server rt).mapM List.head? = some heads) :
    (fetch_schema underscore server rt s).1
      = .ok (mkSchemaSet underscore heads) ∧
    (fetch_schema underscore server rt s).2.2.length = 1 ∧
    fetch_schema underscore server rt (fetch_schema underscore server rt s).2.1
      = (.ok (mkSchemaSet underscore heads),
         (fetch_schema underscore server rt s).2.1, []) := by
  have h1 : fetch_schema underscore server rt s
      = (.ok (mkSchemaSet underscore heads),
         ⟨supdate s.schema rt (mkSchemaSet underscore heads)⟩,
         [⟨"Attribute", [("entity", .rstr rt)]⟩]) := by
    simp only [fetch_schema, hmiss, fetch_schema_fresh, hwf]
  refine ⟨by rw [h1], by rw [h1]; rfl, ?_⟩
  rw [h1]
  simp [fetch_schema, slookup_supdate_self, mkSchemaSet_ne_nil]

/-- Witness for C4: the Patient schema is fetched once and the second call is a
pure cache hit. -/
theorem c4_schema_resolver_cached_witness :
    (slookup (Aidbox.mk []).schema "Patient" = none ∧
      (serverPatientAttrs "Patient").mapM List.head?
        = some ["name", "birth_date"]) ∧
    ((fetch_schema (fun x => x) serverPatientAttrs "Patient" ⟨[]⟩).1
        = .ok (mkSchemaSet (fun x => x) ["name", "birth_date"]) ∧
      (fetch_schema (fun x => x) serverPatientAttrs "Patient" ⟨[]⟩).2.2.length
        = 1 ∧
      fetch_schema (fun x => x) serverPatientAttrs "Patient"
          (fetch_schema (fun x => x) serverPatientAttrs "Patient" ⟨[]⟩).2.1
        = (.ok (mkSchemaSet (fun x => x) ["name", "birth_date"]),
           (fetch_schema (fun x => x) serverPatientAttrs "Patient" ⟨[]⟩).2.1,
           [])) :=
  ⟨⟨rfl, rfl⟩,
    c4_schema_resolver_cached (fun x => x) serverPatientAttrs "Patient" ⟨[]⟩
      rfl ["name", "birth_date"] rfl⟩

/-- Claim C5, counterexample to the claim as stated: on the chained builder,
`all()` over a bundle with exactly one entry whose resource payload carries a
`data` field issues the claimed fetch but raises a TypeError instead of
returning one Resource Entity for the entry — the assignment of `data` replaced
the entity's internal mapping and the next schema-field assignment blew up. -/
theorem c5_clobbered_entry_raises :
    (AidboxSearchSet.all schemaOfPatient janeChain.1 janeChain.2
        (.ok (mkBundle [entryClobber]))).1 = ⟨"Patient", janeParams⟩ ∧
    (AidboxSearchSet.all schemaOfPatient janeChain.1 janeChain.2
        (.ok (mkBundle [entryClobber]))).2 = .error .typeError :=
  ⟨rfl, rfl⟩

/-- Claim C5 (amended): the chained builder
`search(name="Jane").limit(5).sort(["-birth_date","name"])` accumulates exactly
`{name: "Jane", _count: 5, _sort: "-birth_date,name"}` (sort keys joined with a
comma preserving order), and `all()` issues the one fetch with exactly those
parameters; provided no entry's resource payload carries a field named after
one of the entity's internal attribute names (other than
`resource_type`/`meta`), it returns one skip-validation entity per bundle
entry, in server response order. -/
theorem c5_chain_then_all (schemaOf : String → Schema) (ds : List Dict)
    (hsane : ∀ d ∈ ds, ∀ k ∈ dkeys d,
      k ∉ dirNames ∨ k = "resource_type" ∨ k = "meta") :
    janeChain.2.get janeChain.1.paramsRef = janeParams ∧
    (AidboxSearchSet.all schemaOf janeChain.1 janeChain.2
        (.ok (mkBundle ds))).1 = ⟨"Patient", janeParams⟩ ∧
    (AidboxSearchSet.all schemaOf janeChain.1 janeChain.2
        (.ok (mkBundle ds))).2
      = .ok (ds.map (AidboxResource.initSkip schemaOf)) :=
  ⟨rfl, rfl, all_on_bundle schemaOf janeChain.1 janeChain.2 ds hsane⟩

/-- Witness for C5: the chained `all()` on a two-entry collision-free bundle
returns the two entities in order. -/
theorem c5_chain_then_all_witness :
    (∀ d ∈ dsClean, ∀ k ∈ dkeys d,
      k ∉ dirNames ∨ k = "resource_type" ∨ k = "meta") ∧
    (AidboxSearchSet.all schemaOfPatient janeChain.1 janeChain.2
        (.ok (mkBundle dsClean))).2
      = .ok (dsClean.map (AidboxResource.initSkip schemaOfPatient)) :=
  ⟨by decide, (c5_chain_then_all schemaOfPatient dsClean (by decide)).2.2⟩

/-- Claim C6, counterexample to the claim as stated: the server does report a
record for `Patient/p1` — its payload even carries the requested id — yet `get`
raises a TypeError instead of returning an entity, because the payload's `data`
field replaced the entity's internal mapping before the id was stored. -/
theorem c6_clobbered_payload_raises :
    dlookup kwClobber "id" = some (.rstr "p1") ∧
    (AidboxSearchSet.get schemaOfPatient ssPatient "p1"
        (.ok (.robj kwClobber))).2 = .error .typeError :=
  ⟨rfl, rfl⟩

/-- Claim C6 (amended): `get(id)` always fetches `resource_type/id` with no
query parameters (bypassing the accumulated filters), maps a 404 to
AidboxResourceNotFound, maps any other non-success to the authorization error,
and on success returns the one skip-validation entity whose `id` reads back as
the requested id, provided the returned payload carries the requested id and
its field names do not collide with the entity's internal attribute names
(other than `resource_type`/`meta`). -/
theorem c6_get_by_id (schemaOf : String → Schema) (ss : AidboxSearchSet)
    (id : String) :
    (∀ resp, (AidboxSearchSet.get schemaOf ss id resp).1
      = ⟨ss.resource_type ++ "/" ++ id, []⟩) ∧
    (AidboxSearchSet.get schemaOf ss id .notFound).2 = .error .notFound ∧
    (AidboxSearchSet.get schemaOf ss id .other).2
      = .error .authorizationError ∧
    (∀ kw rt1, dlookup kw "resource_type" = some (.rstr rt1) →
      (dkeys kw).Nodup →
      (∀ k ∈ dkeys kw, k ∉ dirNames ∨ k = "resource_type" ∨ k = "meta") →
      "id" ∈ schemaOf rt1 →
      dlookup kw "id" = some (.rstr id) →
      (AidboxSearchSet.get schemaOf ss id (.ok (.robj kw))).2
          = .ok (AidboxResource.initSkip schemaOf kw) ∧
        (AidboxResource.initSkip schemaOf kw).getattr "id"
          = .ok (.rstr id)) := by
  refine ⟨fun _ => rfl, rfl, rfl, ?_⟩
  intro kw rt1 hrt hnd hsane hid hlid
  have hrtv : rtvOf kw = .rstr rt1 := by
    simp [rtvOf, hrt]
  have hra : "id" ∈ (AidboxResource.initSkip schemaOf kw).root_attrs := by
    rw [initSkip_root_attrs_eq schemaOf kw hnd hsane, hrtv]
    simpa [rtName] using hid
  constructor
  · show Aidbox.resource_skip_payload schemaOf kw
      = .ok (AidboxResource.initSkip schemaOf kw)
    simp only [Aidbox.resource_skip_payload, hrt, Aidbox.resource]
    rw [dictUpdate_of_dlookup_eq kw "resource_type" (.rstr rt1) hrt]
    exact init_skip_eq schemaOf kw hsane
  · exact initSkip_getattr_roundtrip schemaOf kw "id" (.rstr id) hnd hsane
      hlid (by decide) hra rfl

/-- Witness for C6: fetching `Patient/p1` with a collision-free payload returns
the entity whose id reads back as `p1`. -/
theorem c6_get_by_id_witness :
    (dlookup kwGet "resource_type" = some (.rstr "Patient") ∧
      (dkeys kwGet).Nodup ∧
      (∀ k ∈ dkeys kwGet, k ∉ dirNames ∨ k = "resource_type" ∨ k = "meta") ∧
      "id" ∈ schemaOfPatient "Patient" ∧
      dlookup kwGet "id" = some (.rstr "p1")) ∧
    ((AidboxSearchSet.get schemaOfPatient ssPatient "p1" (.ok (.robj kwGet))).2
        = .ok (AidboxResource.initSkip schemaOfPatient kwGet) ∧
      (AidboxResource.initSkip schemaOfPatient kwGet).getattr "id"
        = .ok (.rstr "p1")) :=
  ⟨⟨rfl, by decide, by decide, by decide, rfl⟩,
    (c6_get_by_id schemaOfPatient ssPatient "p1").2.2.2 kwGet "Patient" rfl
      (by decide) (by decide) (by decide) rfl⟩

/-- Claim C7: assigning an entity that has an id as a schema-known field of
another entity stores an AidboxReference holding exactly the assigned entity's
resource type and id — entities never nest by value.  The hypotheses pin the
target entity's session and data slots to their intact state, the only state
the source's entities are ever in until an internal slot is clobbered; the
assigned entity is pure data in this embedding and `reference()` only reads
it, so it is unaffected. -/
theorem c7_entity_to_reference (sf : String → Schema) (r e : AidboxResource)
    (f : String) (idv : RVal) (fs : Dict)
    (hA : r.aidbox = some sf) (hD : r.data = .robj fs)
    (hdir : f ∉ dirNames) (hattr : f ∈ r.root_attrs)
    (hid : dlookup e.dataFields "id" = some idv) :
    r.setattr f e.toVal
      = .ok { r with
          data := .robj (dictUpdate fs f (.rref (rtName e.resource_type) idv)) } ∧
    ∀ r1, r.setattr f e.toVal = .ok r1 →
      dlookup r1.dataFields f = some (.rref (rtName e.resource_type) idv) := by
  have hconv : convertValue e.toVal = .rref (rtName e.resource_type) idv := by
    simp [AidboxResource.toVal, convertValue, idOf, hid]
  have hattr1 : f ∈ sf (rtName r.resource_type) := by
    simpa [AidboxResource.root_attrs, hA] using hattr
  have hs : r.setattr f e.toVal
      = .ok { r with
          data := .robj (dictUpdate fs f (.rref (rtName e.resource_type) idv)) } := by
    simp [AidboxResource.setattr, hdir, hA, hD, hattr1, hconv]
  refine ⟨hs, ?_⟩
  intro r1 h1
  rw [hs] at h1
  simp only [Except.ok.injEq] at h1
  rw [← h1]
  simp [AidboxResource.dataFields, dlookup_dictUpdate_self]

/-- Witness for C7: assigning the Practitioner entity to a Patient's `name`
field stores the reference `Practitioner/pr1`. -/
theorem c7_entity_to_reference_witness :
    (rPat.aidbox = some schemaOfPatient ∧ rPat.data = .robj [] ∧
      "name" ∉ dirNames ∧ "name" ∈ rPat.root_attrs ∧
      dlookup ePract.dataFields "id" = some (.rstr "pr1")) ∧
    (rPat.setattr "name" ePract.toVal
        = .ok { rPat with
            data := .robj (dictUpdate [] "name"
              (.rref (rtName ePract.resource_type) (.rstr "pr1"))) } ∧
      ∀ r1, rPat.setattr "name" ePract.toVal = .ok r1 →
        dlookup r1.dataFields "name"
          = some (.rref (rtName ePract.resource_type) (.rstr "pr1"))) :=
  ⟨⟨rfl, rfl, by decide, by decide, rfl⟩,
    c7_entity_to_reference schemaOfPatient rPat ePract "name" (.rstr "pr1") []
      rfl rfl (by decide) (by decide) rfl⟩

/-- Claim C8, counterexample to the claim as stated: `entity.data = {bogus: 1}`
is an attribute assignment the source accepts through the `dir` branch — it
replaces the data mapping wholesale, planting the key `bogus`, which does not
belong to the Patient schema: the claimed invariant is not preserved by every
attribute assignment. -/
theorem c8_data_assignment_breaks_invariant :
    rPat.setattr "data" (.robj [("bogus", RVal.rint 1)])
      = .ok { rPat with data := .robj [("bogus", RVal.rint 1)] } ∧
    (dlookup ({ rPat with data := .robj [("bogus", RVal.rint 1)]
        : AidboxResource }).dataFields "bogus").isSome = true ∧
    "bogus" ∉ ({ rPat with data := .robj [("bogus", RVal.rint 1)]
        : AidboxResource }).root_attrs :=
  ⟨rfl, rfl, by decide⟩

/-- Claim C8 (amended): construction from a payload whose field names avoid the
internal attribute names (other than `resource_type`/`meta`) establishes the
invariant that every key stored in the data mapping belongs to the resource
type's schema attribute set, and every attribute assignment other than one
rebinding an internal slot itself (the `data` mapping, the owning session
`aidbox`, the resource-type name — rebinding those replaces the mapping or
changes which schema set later accesses consult) preserves it; `meta` and the
identifying attributes (`aidbox`, `resource_type`) are always assignable — the
assignment itself never raises — and so is `id` whenever the schema set is one
the resolver produced, since the resolver always unions in `id`. -/
theorem c8_data_invariant (sf : String → Schema) (rtv : RVal)
    (r r1 : AidboxResource) (key : String) (v : RVal)
    (underscore : String → String) (heads : List String)
    (hr : intactAt sf rtv r)
    (hinv : ∀ k, (dlookup r.dataFields k).isSome → k ∈ sf (rtName rtv)) :
    (∀ (skip : Bool) (kwargs : Dict) (r0 : AidboxResource),
      (dkeys kwargs).Nodup →
      (∀ k ∈ dkeys kwargs, k ∉ dirNames ∨ k = "resource_type" ∨ k = "meta") →
      AidboxResource.init sf skip kwargs = .ok r0 →
      ∀ k, (dlookup r0.dataFields k).isSome → k ∈ r0.root_attrs) ∧
    (key ≠ "data" → key ≠ "resource_type" → key ≠ "aidbox" →
      r.setattr key v = .ok r1 →
      intactAt sf rtv r1 ∧
        ∀ k, (dlookup r1.dataFields k).isSome → k ∈ sf (rtName rtv)) ∧
    (isOkRes (r.setattr "meta" v) = true ∧
      isOkRes (r.setattr "resource_type" v) = true ∧
      isOkRes (r.setattr "aidbox" v) = true) ∧
    (sf (rtName rtv) = mkSchemaSet underscore heads →
      isOkRes (r.setattr "id" v) = true) := by
  obtain ⟨hA, hT, fs, hD⟩ := hr
  refine ⟨?_, ?_, ⟨rfl, rfl, rfl⟩, ?_⟩
  · intro skip kwargs r0 hnd hsane h
    have hres := initFields_inv sf (rtvOf kwargs) (initRest kwargs) skip
      (initBase sf kwargs) r0 ⟨rfl, rfl, [], rfl⟩
      (saneEntries_of_rest kwargs hnd hsane) h
      (fun k hk => by
        simp [initBase, AidboxResource.dataFields, dlookup] at hk)
    obtain ⟨⟨hA0, hT0, _, _⟩, hinv0⟩ := hres
    intro k hk
    have hmem := hinv0 k hk
    simp [AidboxResource.root_attrs, hA0, hT0]
    exact hmem
  · intro hk1 hk2 hk3 h
    exact setattr_preserves_inv sf rtv r r1 key v ⟨hA, hT, fs, hD⟩
      hk1 hk2 hk3 h hinv
  · intro hsch
    have hm : "id" ∈ sf (rtName r.resource_type) := by
      rw [hT, hsch]
      exact id_mem_mkSchemaSet underscore heads
    simp [AidboxResource.setattr, (by decide : ¬ "id" ∈ dirNames), hA, hD, hm,
      isOkRes]

/-- Witness for C8: the preservation machinery evaluated on the concrete
Patient entity (intact, with an empty data mapping, so the invariant
hypothesis holds). -/
theorem c8_data_invariant_witness :
    (intactAt schemaOfPatient (.rstr "Patient") rPat ∧
      ∀ k, (dlookup rPat.dataFields k).isSome →
        k ∈ schemaOfPatient (rtName (.rstr "Patient"))) ∧
    (isOkRes (rPat.setattr "meta" (.rstr "m")) = true ∧
      isOkRes (rPat.setattr "resource_type" (.rstr "m")) = true ∧
      isOkRes (rPat.setattr "aidbox" (.rstr "m")) = true) :=
  ⟨⟨⟨rfl, rfl, [], rfl⟩,
      fun k hk => by simp [rPat, AidboxResource.dataFields, dlookup] at hk⟩,
    (c8_data_invariant schemaOfPatient (.rstr "Patient") rPat rPat "name"
        (.rstr "m") (fun x => x) ["name", "birth_date"] ⟨rfl, rfl, [], rfl⟩
        (fun k hk => by
          simp [rPat, AidboxResource.dataFields, dlookup] at hk)).2.2.1⟩

/-- Claim C9: with schema `{id, name, birth_date}` for Patient, constructing
`Patient(name="Jane", unknown_field="x")` without skip-validation raises
AidboxResourceFieldDoesNotExist naming `unknown_field`; with skip-validation it
succeeds, after which reading `unknown_field` raises the same error (it is not
silently returned) while reading `name` returns Jane. -/
theorem c9_unknown_field_scenario :
    Aidbox.resource schemaOfPatient "Patient" false kwJane
      = .error (.fieldDoesNotExist "unknown_field" "Patient") ∧
    isOkRes (Aidbox.resource schemaOfPatient "Patient" true kwJane) = true ∧
    readField (Aidbox.resource schemaOfPatient "Patient" true kwJane)
        "unknown_field"
      = .error (.fieldDoesNotExist "unknown_field" "Patient") ∧
    readField (Aidbox.resource schemaOfPatient "Patient" true kwJane) "name"
      = .ok (.rstr "Jane") :=
  ⟨rfl, rfl, rfl, rfl⟩

/-- Claim C10: every schema set the resolver stores contains the fixed name
`id` (so it is non-empty), and consequently the truthiness-based cache-hit test
never refetches a resource type whose cache entry is populated — even one whose
server-side attribute-definition list was empty, which caches exactly
`{"id"}`. -/
theorem c10_cached_sets_contain_id (underscore : String → String)
    (server : String → List (List String)) (rt : String) (s : Aidbox)
    (hinv : ∀ t sch, slookup s.schema t = some sch → "id" ∈ sch) :
    (∀ t sch,
      slookup (fetch_schema underscore server rt s).2.1.schema t = some sch →
        "id" ∈ sch) ∧
    (∀ sch, slookup s.schema rt = some sch →
      fetch_schema underscore server rt s = (.ok sch, s, [])) := by
  have hempty : ∀ sch : Schema, "id" ∈ sch → sch.isEmpty = false := by
    intro sch hid
    cases sch with
    | nil => simp at hid
    | cons a l => rfl
  constructor
  · rcases h1 : slookup s.schema rt with _ | sch
    · rcases h2 : (server rt).mapM List.head? with _ | heads
      · simp only [fetch_schema, h1, fetch_schema_fresh, h2]
        exact hinv
      · simp only [fetch_schema, h1, fetch_schema_fresh, h2]
        intro t sch h3
        by_cases ht : t = rt
        · subst ht
          rw [slookup_supdate_self] at h3
          cases h3
          exact id_mem_mkSchemaSet underscore heads
        · rw [slookup_supdate_ne _ _ _ _ (fun he => ht he.symm)] at h3
          exact hinv t sch h3
    · have hne := hempty sch (hinv rt sch h1)
      simp only [fetch_schema, h1, hne, Bool.false_eq_true, if_false]
      exact hinv
  · intro sch h1
    have hne := hempty sch (hinv rt sch h1)
    simp [fetch_schema, h1, hne]

/-- Witness for C10: a session whose cache holds `Patient ↦ {"id"}` — the set
an empty server-side attribute list produces — is never refetched, even with a
server that returns no attribute definitions at all. -/
theorem c10_cached_sets_contain_id_witness :
    (∀ t sch, slookup sessionPatientCached.schema t = some sch →
      "id" ∈ sch) ∧
    (∀ sch, slookup sessionPatientCached.schema "Patient" = some sch →
      fetch_schema (fun x => x) (fun _ => []) "Patient" sessionPatientCached
        = (.ok sch, sessionPatientCached, [])) :=
  ⟨by
    intro t sch h
    by_cases ht : "Patient" = t
    · simp [sessionPatientCached, slookup, ht] at h
      rw [← h]; decide
    · simp [sessionPatientCached, slookup, ht] at h,
   (c10_cached_sets_contain_id (fun x => x) (fun _ => []) "Patient"
      sessionPatientCached
      (by
        intro t sch h
        by_cases ht : "Patient" = t
        · simp [sessionPatientCached, slookup, ht] at h
          rw [← h]; decide
        · simp [sessionPatientCached, slookup, ht] at h)).2⟩

